import Mathlib

/-!
Formal model of the codal NRF52 pin multiplexing layer
(`src/source/NRF52Pin.cpp`): the pin mode state machine, the peripheral
ownership protocol (`connect` / `disconnect`), the PWM duty-buffer
management, the servo scaling arithmetic and the GPIO port interrupt
demultiplexer, embedded as pure functions over an explicit pin state.

Machine integers are modelled as `Nat` (registers, status words) and `Int`
(C `int` parameters and return codes), with explicit masking where 32-bit
truncation matters.  The single-precision floating point expressions of the
source are modelled as exact real arithmetic followed by integer
truncation; every concrete value evaluated in the theorems below is exactly
representable in `float`, so the model agrees with the source at those
points.
-/

namespace NRF52PinModel

/-! Status bits of `codal::Pin::status`.  The `IO_STATUS_*` constants come
from the codal-core `Pin.h` header, which is not under `src/`.  Modelled
from the spec: the exclusive mode groups digital-in / digital-out /
analog-in / analog-out, the layered touch / edge / pulse / interrupt flags,
the persistent preference bits (touch variant, polarity, wake-on-active)
retained by `IO_STATUS_MODES`, and the `DISCONNECTING` re-entrancy guard
bit, as distinct bits of the status word. -/

def IO_STATUS_DIGITAL_IN : Nat := 0x0001

def IO_STATUS_DIGITAL_OUT : Nat := 0x0002

def IO_STATUS_ANALOG_IN : Nat := 0x0004

def IO_STATUS_ANALOG_OUT : Nat := 0x0008

def IO_STATUS_TOUCH_IN : Nat := 0x0010

def IO_STATUS_EVENT_ON_EDGE : Nat := 0x0020

def IO_STATUS_EVENT_PULSE_ON_EDGE : Nat := 0x0040

def IO_STATUS_INTERRUPT_ON_EDGE : Nat := 0x0080

def IO_STATUS_CAPACITATIVE_TOUCH : Nat := 0x0100

def IO_STATUS_WAKE_ON_ACTIVE : Nat := 0x0200

def IO_STATUS_DISCONNECTING : Nat := 0x0400

def IO_STATUS_ACTIVE_LO : Nat := 0x0800

/-- Persistent subset of the status word retained across `disconnect`
("retain preferred TouchSense, Polarity and wake modes"). -/
def IO_STATUS_MODES : Nat :=
  IO_STATUS_CAPACITATIVE_TOUCH ||| IO_STATUS_WAKE_ON_ACTIVE ||| IO_STATUS_ACTIVE_LO

/-- Edge-sense field of a `PIN_CNF` register (`GPIO_PIN_CNF_SENSE_Msk`,
bits 16-17 of the 32-bit configuration register). -/
def GPIO_PIN_CNF_SENSE_Msk : Nat := 0x30000

/-- 32-bit complement of `GPIO_PIN_CNF_SENSE_Msk`, the mask actually
applied by `PIN_CNF[PIN] &= ~(GPIO_PIN_CNF_SENSE_Msk)`. -/
def NOT_SENSE_Msk : Nat := 0xFFFCFFFF

/-! Return codes, from the codal-core `ErrorNo.h` header (not under
`src/`).  Modelled from the spec: `DEVICE_OK` is zero and the error kinds
InvalidParameter / NotSupported / Busy / Cancelled are distinct negative
codes; only distinctness and the zero of `DEVICE_OK` matter below. -/

def DEVICE_OK : Int := 0

def DEVICE_INVALID_PARAMETER : Int := -1001

def DEVICE_NOT_SUPPORTED : Int := -1002

def DEVICE_BUSY : Int := -1006

def DEVICE_CANCELLED : Int := -1007

/-- Largest analog output level accepted by `setAnalogValue`
(`DEVICE_PIN_MAX_OUTPUT`, codal-core constant, not under `src/`; the
source divides by `DEVICE_PIN_MAX_OUTPUT + 1 = 1024`). -/
def DEVICE_PIN_MAX_OUTPUT : Int := 1023

/-- Largest servo angle (`DEVICE_PIN_MAX_SERVO_RANGE`, codal-core
constant, not under `src/`; the spec clamps the angle to `[0, 180]`). -/
def DEVICE_PIN_MAX_SERVO_RANGE : Int := 180

/-- Default servo range in microseconds (`DEVICE_PIN_DEFAULT_SERVO_RANGE`,
codal-core constant, not under `src/`). Modelled from the spec and the
source doc comment: the default duty cycle spans 500us to 2500us, i.e.
center 1500 with range 2000. -/
def DEVICE_PIN_DEFAULT_SERVO_RANGE : Int := 2000

/-- Default servo center in microseconds
(`DEVICE_PIN_DEFAULT_SERVO_CENTER`, codal-core constant, not under
`src/`). -/
def DEVICE_PIN_DEFAULT_SERVO_CENTER : Int := 1500

/-- A peripheral adapter attached to a pin (`PinPeripheral`).  Identity
(`pid`) stands for the C++ object address used by the `obj != &p` and
`obj == pwm` pointer comparisons; `locked` is the value reported by
`isPinLocked()`. -/
structure Periph where
  pid : Nat
  locked : Bool
deriving DecidableEq

/-- The shared PWM collaborator singleton, viewed as the
implicit-PWM-owner peripheral adapter recorded on a pin by
`NRF52PWM::connectPin`; `pid` 0 stands for its address, so the pointer
comparison `obj == pwm` of `disconnect` is equality with this value. -/
def pwmPeriph : Periph := ⟨0, false⟩

/-- State of one pin together with the global PWM channel pool and the
hardware registers the modelled operations touch.  `outBit`, `dirBit` and
`inBit` are this pin's bits of the port `OUT`, `DIR` and `IN` registers;
`cnf` is the 32-bit `PIN_CNF` register; `pwmChannelMap` / `pwmBuffer` /
`lastUsedChannel` are the static channel pool of `NRF52Pin`;
`sampleRange` models the external `pwm->getSampleRange()`; `playCount`
counts the `pwmSource->playAsync` full-buffer retransmissions. -/
structure PinState where
  name : Nat
  analogCapable : Bool
  status : Nat
  obj : Option Periph
  outBit : Bool
  dirBit : Bool
  inBit : Bool
  cnf : Nat
  pwmChannelMap : Fin 4 → Int
  pwmBuffer : Fin 4 → Nat
  lastUsedChannel : Nat
  sampleRange : Nat
  periodUs : Nat
  playCount : Nat

/-- Re-entrancy test `isDisconnecting()`. -/
def isDisconnecting (s : PinState) : Bool :=
  s.status &&& IO_STATUS_DISCONNECTING != 0

/-- `NRF52Pin::disconnect` (NRF52Pin.cpp lines 188-218).  If the pin is
already mid-disconnect, return unchanged.  Otherwise, if a peripheral is
attached and not pin-locked: set the `DISCONNECTING` guard, release the
peripheral (`releasePin`, an external callback that does not change the
modelled pin state), free any PWM channels mapped to this pin when the
peripheral is the PWM collaborator, and clear the owner.  In all
non-guarded cases, finally clear the edge-sense field of `PIN_CNF` and
mask the status word down to the persistent `IO_STATUS_MODES` bits. -/
def disconnect (s : PinState) : PinState :=
  if isDisconnecting s then s
  else
    let s1 :=
      match s.obj with
      | some p =>
        if p.locked then s
        else
          { s with
            status := s.status ||| IO_STATUS_DISCONNECTING,
            pwmChannelMap := fun i =>
              if p = pwmPeriph ∧ s.pwmChannelMap i = (s.name : Int) then -1
              else s.pwmChannelMap i,
            obj := none }
      | none => s
    { s1 with
      cnf := s1.cnf &&& NOT_SENSE_Msk,
      status := s1.status &&& IO_STATUS_MODES }

/-- `NRF52Pin::connect` (NRF52Pin.cpp lines 166-179).  A no-op when the
pin is already attached to the same peripheral instance; otherwise the
current owner (if any) is disconnected first and the new peripheral is
recorded.  The base-class `Pin::connect` bookkeeping (`deleteOnRelease`)
lives outside `src/` and does not touch the modelled state. -/
def connect (s : PinState) (p : Periph) : PinState :=
  if s.obj = some p then s
  else
    let s1 :=
      match s.obj with
      | some _ => disconnect s
      | none => s
    { s1 with obj := some p }

/-- One foreground call of the ownership protocol. -/
inductive PinOp where
  | connectOp (p : Periph)
  | disconnectOp

/-- Apply one ownership-protocol call to a pin state. -/
def applyOp (s : PinState) : PinOp → PinState
  | .connectOp p => connect s p
  | .disconnectOp => disconnect s

/-- Run a sequence of connect / disconnect calls. -/
def run (s : PinState) (l : List PinOp) : PinState :=
  l.foldl applyOp s

/-- Number of peripheral adapters the pin's owner reference refers to. -/
def ownerCount (s : PinState) : Nat :=
  match s.obj with
  | none => 0
  | some _ => 1

/-- The unowned-or-locked test `(!obj || obj->isPinLocked())` used by the
fast paths of the digital accessors. -/
def objUnownedOrLocked (s : PinState) : Bool :=
  match s.obj with
  | none => true
  | some p => p.locked

/-- `NRF52Pin::setDigitalValue` (NRF52Pin.cpp lines 234-259).  Fast path:
if the pin is already digital-out and it is unowned or its owner is
pin-locked, only the output bit is written.  Otherwise the pin is
disconnected, the output bit written, the pin configured as an output
(bit 0 of `PIN_CNF`, which is the same hardware direction bit as
`PORT->DIR`, so the model keeps `dirBit` in sync) and the status marked
digital-out.  The source never validates `value`: any nonzero value
writes `OUTSET`, zero writes `OUTCLR`, and both paths return
`DEVICE_OK`. -/
def setDigitalValue (s : PinState) (value : Int) : PinState × Int :=
  if s.status &&& IO_STATUS_DIGITAL_OUT ≠ 0 ∧ objUnownedOrLocked s then
    ({ s with outBit := value != 0 }, DEVICE_OK)
  else
    let s1 := disconnect s
    let s2 := { s1 with outBit := value != 0 }
    let s3 := { s2 with cnf := s2.cnf ||| 1, dirBit := true }
    ({ s3 with status := s3.status ||| IO_STATUS_DIGITAL_OUT }, DEVICE_OK)

/-- `NRF52Pin::getAndSetDigitalValue` (NRF52Pin.cpp lines 1053-1082).
When the direction bit shows input: drive `value` on the output latch,
then perform the test-and-set of `get_and_set` / `get_and_clr` (lines
1041-1051): `DIRSET = ~IN & mask` (resp. `DIRSET = IN & mask`) flips the
direction to output exactly when the sampled input level differs from the
driven value (the hardware direction bit is also bit 0 of `PIN_CNF`, kept
in sync).  If the direction bit is then set, disconnect the previous
peripheral and run `setDigitalValue` to finalize the status, returning 0;
otherwise return `DEVICE_BUSY`.  When the direction already shows output,
return 0 at once without touching anything. -/
def getAndSetDigitalValue (s : PinState) (value : Int) : PinState × Int :=
  if s.dirBit = false then
    let s1 := { s with outBit := value != 0 }
    let s2 :=
      if value != 0 then
        (if s1.inBit = false then
          { s1 with dirBit := true, cnf := s1.cnf ||| 1 }
        else s1)
      else
        (if s1.inBit = true then
          { s1 with dirBit := true, cnf := s1.cnf ||| 1 }
        else s1)
    if s2.dirBit then
      ((setDigitalValue (disconnect s2) value).1, 0)
    else
      (s2, DEVICE_BUSY)
  else (s, 0)

/-- Concrete unattached pin state used by the witnesses below. -/
def stateA : PinState :=
  { name := 2, analogCapable := true, status := 0, obj := none,
    outBit := false, dirBit := false, inBit := false, cnf := 0,
    pwmChannelMap := fun _ => -1, pwmBuffer := fun _ => 0,
    lastUsedChannel := 3, sampleRange := 1000, periodUs := 20000,
    playCount := 0 }

/-- Concrete unlocked peripheral adapter. -/
def periphA : Periph := ⟨1, false⟩

/-- A second, distinct unlocked peripheral adapter. -/
def periphB : Periph := ⟨2, false⟩

/-- Concrete pin state owned by `periphA`. -/
def stateB : PinState := { stateA with obj := some periphA }

/-- Concrete pin state with a pin-locked adapter attached, transient
status flags set (digital-in plus edge events) and the edge-sense field of
`PIN_CNF` configured. -/
def stateLocked : PinState :=
  { stateA with
    obj := some ⟨5, true⟩,
    status := IO_STATUS_DIGITAL_IN ||| IO_STATUS_EVENT_ON_EDGE,
    cnf := 0x30000 }

/-- Concrete pin state in input mode whose sampled line level is low. -/
def stateIn : PinState := { stateA with obj := some periphA }

/-- Linear scan of the PWM channel map (`for (i...) if (pwmChannelMap[i]
== name) channel = i`, NRF52Pin.cpp lines 359-361): the last matching
index wins. -/
def findChannel (map : Fin 4 → Int) (name : Nat) : Option (Fin 4) :=
  (List.finRange 4).foldl
    (fun c i => if map i = (name : Int) then some i else c) none

/-- Channel allocation step of `setAnalogValue` (lines 356-373): reuse
the channel already mapped to this pin; otherwise advance the round-robin
index over the pool, overwrite the map entry (implicitly evicting its
previous holder) and connect the PWM collaborator to the pin.  Modelled
from the spec: `initialisePWM` and `pwm->connectPin` are external; their
visible effect on the pin is recording the implicit-PWM-owner adapter
through the ownership protocol. -/
def allocChannel (s : PinState) : PinState × Fin 4 :=
  match findChannel s.pwmChannelMap s.name with
  | some c => (s, c)
  | none =>
    let c : Fin 4 := ⟨(s.lastUsedChannel + 1) % 4, Nat.mod_lt _ (by norm_num)⟩
    let s1 := { s with
      pwmChannelMap := fun i => if i = c then (s.name : Int) else s.pwmChannelMap i,
      lastUsedChannel := c.val }
    (connect s1 pwmPeriph, c)

/-- Core of `NRF52Pin::setAnalogValue` after validation and the optional
disconnect (lines 356-382): allocate a channel, set the analog-out status
bit unless a pin-locked foreign owner is attached, store the inverted
duty `(int)((float)sampleRange * (1 - (float)value / 1024.0f))` —
modelled as the exact `sampleRange * (1024 - value) / 1024` — in the
channel's buffer entry, and retransmit the whole buffer
(`pwmSource->playAsync`). -/
def setAnalogValueValid (s0 : PinState) (value : Int) : PinState × Int :=
  let s1 := (allocChannel s0).1
  let channel := (allocChannel s0).2
  let s2 :=
    match s1.obj with
    | none => { s1 with status := s1.status ||| IO_STATUS_ANALOG_OUT }
    | some p =>
      if p.locked = false then
        { s1 with status := s1.status ||| IO_STATUS_ANALOG_OUT }
      else s1
  let duty := s2.sampleRange * (1024 - value.toNat) / 1024
  ({ s2 with
      pwmBuffer := fun i => if i = channel then duty else s2.pwmBuffer i,
      playCount := s2.playCount + 1 }, DEVICE_OK)

/-- `NRF52Pin::setAnalogValue` (lines 343-383): reject pins without
analog capability, reject values outside `[0, DEVICE_PIN_MAX_OUTPUT]`
before any mutation, disconnect unless already in analog-out mode, then
run the allocation / duty-store / retransmit core. -/
def setAnalogValue (s : PinState) (value : Int) : PinState × Int :=
  if !s.analogCapable then (s, DEVICE_NOT_SUPPORTED)
  else if value < 0 ∨ value > DEVICE_PIN_MAX_OUTPUT then
    (s, DEVICE_INVALID_PARAMETER)
  else
    setAnalogValueValid
      (if s.status &&& IO_STATUS_ANALOG_OUT = 0 then disconnect s else s) value

/-- Pulse-width arithmetic of `NRF52Pin::setServoValue` (lines 402-425):
validate, clip the angle to `DEVICE_PIN_MAX_SERVO_RANGE`, compute the
lower bound `(center - range/2)*1000`, scale, and hand `scaled / 1000` to
`setServoPulseUs`.  C `int` division truncates toward zero (`Int.tdiv`);
the conversion to the `uint32_t` parameter of `setServoPulseUs` is
reduction modulo 2^32. -/
def servoPulseUs (value range center : Int) : Option Nat :=
  if value < 0 ∨ range < 1 ∨ center < 1 then none
  else
    let v := min value DEVICE_PIN_MAX_SERVO_RANGE
    let lower := (center - range.tdiv 2) * 1000
    let scaled := lower + range * ((v * 1000).tdiv DEVICE_PIN_MAX_SERVO_RANGE)
    some ((scaled.tdiv 1000) % 4294967296).toNat

/-- Duty-level conversion of `NRF52Pin::setServoPulseUs` (lines 672-680):
with the period forced to 20000us, the analog level is
`(int)(1024.0f * pulseWidth / 20000.0f)`, modelled as exact arithmetic
with final truncation. -/
def servoDutyLevel (pulseWidth : Nat) : Nat :=
  1024 * pulseWidth / 20000

/-- `NRF52Pin::setAnalogPeriodUs` (lines 689-711).  Only valid in
analog-out mode.  The external `pwm->setPeriodUs` changes the hardware
sample range; modelled from the spec, its effect is abstracted by the
`newRange` argument (the value `pwm->getSampleRange()` returns after the
period change).  Every channel's buffered duty is rescaled by
`(uint16_t)((float)buf * newRange / oldRange)` — exact arithmetic,
truncation, reduction mod 2^16 — and the whole buffer is
retransmitted. -/
def setAnalogPeriodUs (s : PinState) (period : Nat) (newRange : Nat) :
    PinState × Int :=
  if s.status &&& IO_STATUS_ANALOG_OUT ≠ 0 then
    let oldRange := s.sampleRange
    ({ s with
        periodUs := period,
        sampleRange := newRange,
        pwmBuffer := fun i => s.pwmBuffer i * newRange / oldRange % 65536,
        playCount := s.playCount + 1 }, DEVICE_OK)
  else (s, DEVICE_NOT_SUPPORTED)

/-- Concrete analog-out state: channel 0 already mapped to this pin and a
hardware sample range of 2048 (sample ranges above 1024 are the norm for
a 20ms period). -/
def statePwm : PinState :=
  { stateA with
    status := IO_STATUS_ANALOG_OUT,
    obj := some pwmPeriph,
    pwmChannelMap := fun i => if i.val = 0 then (2 : Int) else -1,
    sampleRange := 2048 }

/-- Concrete analog-out state with sample range 1000 and every channel's
buffered duty at 250, used by the C7 witness. -/
def stateRescale : PinState :=
  { stateA with status := IO_STATUS_ANALOG_OUT, pwmBuffer := fun _ => 250 }

/-- Edge dispatched by the interrupt demultiplexer: `rise()` or
`fall()`. -/
inductive EdgeKind where
  | rise
  | fall
deriving DecidableEq

/-- Fuel-bounded bit width recursion behind `hsb`; fuel 32 covers every
32-bit value. -/
def hsbF : Nat → Nat → Nat
  | 0, _ => 0
  | fuel + 1, n => if n < 2 then 0 else hsbF fuel (n / 2) + 1

/-- Index of the most significant set bit of a nonzero 32-bit value,
mirroring the `31 - clz(value)` assembler sequence of
`process_gpio_irq`. -/
def hsb (n : Nat) : Nat := hsbF 32 n

/-- The `while(latch)` loop of `process_gpio_irq` (NRF52Pin.cpp lines
78-117), with fuel bounding the iteration count (a 32-bit latch has at
most 32 set bits, so fuel 32 drains any latch).  Each step extracts the
highest set bit, clears it in the local snapshot (`latch &= ~(1 <<
pinNumber)`, a 32-bit complement), looks the pin up in the `irq_pins`
registry, and — when the pin's status carries one of the edge-event
flags — toggles the sense bit (bit 16) of the pin's `PIN_CNF` and
dispatches `rise` if the new sense configuration has the bit set, `fall`
otherwise.  (The wake-on-active branch dispatches a power notification,
not a rise/fall event, and is outside this model.)  Returns the dispatch
trace in order together with the final `PIN_CNF` contents. -/
def gpioIrqLoop : Nat → (Nat → Option Nat) → (Nat → Nat) → Nat → Nat →
    List (Nat × EdgeKind) → List (Nat × EdgeKind) × (Nat → Nat)
  | 0, _, cnf, _, _, acc => (acc.reverse, cnf)
  | fuel + 1, pins, cnf, offset, latch, acc =>
    if latch = 0 then (acc.reverse, cnf)
    else
      let pinNumber := hsb latch
      let latch1 := latch &&& (4294967295 ^^^ (1 <<< pinNumber))
      match pins (pinNumber + offset) with
      | none => gpioIrqLoop fuel pins cnf offset latch1 acc
      | some status =>
        if status &&& (IO_STATUS_EVENT_ON_EDGE |||
            IO_STATUS_EVENT_PULSE_ON_EDGE |||
            IO_STATUS_INTERRUPT_ON_EDGE) ≠ 0 then
          let cnf1 := fun m =>
            if m = pinNumber then cnf pinNumber ^^^ 65536 else cnf m
          let ev :=
            if cnf1 pinNumber &&& 65536 ≠ 0 then
              (pinNumber + offset, EdgeKind.rise)
            else (pinNumber + offset, EdgeKind.fall)
          gpioIrqLoop fuel pins cnf1 offset latch1 (ev :: acc)
        else gpioIrqLoop fuel pins cnf offset latch1 acc

/-- `process_gpio_irq` (NRF52Pin.cpp lines 68-120): snapshot the port
latch, drain it, then acknowledge by writing all-ones to the
write-1-to-clear `LATCH` register, leaving every latch bit of the port
cleared (the final `Nat` component). -/
def process_gpio_irq (pins : Nat → Option Nat) (cnf : Nat → Nat)
    (offset : Nat) (latch : Nat) :
    List (Nat × EdgeKind) × (Nat → Nat) × Nat :=
  let r := gpioIrqLoop 32 pins cnf offset latch []
  (r.1, r.2, 0)

/-- One of the three edge-event registration flags. -/
def edgeFlagOf : Fin 3 → Nat
  | 0 => IO_STATUS_EVENT_ON_EDGE
  | 1 => IO_STATUS_EVENT_PULSE_ON_EDGE
  | 2 => IO_STATUS_INTERRUPT_ON_EDGE

/-- An `irq_pins` registry with pins 3, 7 and 20 registered, each for an
arbitrary one of the three edge-event flags. -/
def demoRegistry (f3 f7 f20 : Fin 3) : Nat → Option Nat := fun n =>
  if n = 3 then some (edgeFlagOf f3)
  else if n = 7 then some (edgeFlagOf f7)
  else if n = 20 then some (edgeFlagOf f20)
  else none

/-- `PIN_CNF` contents with arbitrary initial sense polarity (bit 16) for
pins 3, 7 and 20. -/
def demoCnf (b3 b7 b20 : Bool) : Nat → Nat := fun n =>
  if n = 3 then (if b3 then 65536 else 0)
  else if n = 7 then (if b7 then 65536 else 0)
  else if n = 20 then (if b20 then 65536 else 0)
  else 0

/-- Masking twice by the same word is the same as masking once. -/
theorem land_land_self (a m : Nat) : a &&& m &&& m = a &&& m := by
  rw [Nat.and_assoc, Nat.and_self]

/-- Masking by two disjoint words yields zero. -/
theorem land_land_eq_zero (a m d : Nat) (h : m &&& d = 0) :
    a &&& m &&& d = 0 := by
  rw [Nat.and_assoc, h, Nat.and_zero]

/-- A status word masked to the persistent mode bits never carries the
`DISCONNECTING` guard bit. -/
theorem modes_not_disconnecting (x : Nat) :
    x &&& IO_STATUS_MODES &&& IO_STATUS_DISCONNECTING = 0 :=
  land_land_eq_zero x _ _ (by decide)

/-- A pin state that went through the tail of `disconnect` is not marked
as disconnecting. -/
theorem isDisconnecting_after_mask (s : PinState) (x : Nat)
    (h : s.status = x &&& IO_STATUS_MODES) : isDisconnecting s = false := by
  simp [isDisconnecting, h, modes_not_disconnecting]

/-- Setting a mask and then testing it recovers the mask. -/
theorem lor_land_self (a m : Nat) : (a ||| m) &&& m = m := by
  apply Nat.eq_of_testBit_eq
  intro i
  rw [Nat.testBit_and, Nat.testBit_or]
  cases a.testBit i <;> cases m.testBit i <;> rfl

/-- Disconnecting an unattached pin leaves it unattached. -/
theorem disconnect_obj_none (s : PinState) (h : s.obj = none) :
    (disconnect s).obj = none := by
  by_cases hd : isDisconnecting s <;> simp [disconnect, hd, h]

/-- Disconnecting a pin whose unlocked owner is attached, outside of a
disconnect already in progress, clears the owner reference. -/
theorem disconnect_clears_owner (s : PinState) (p : Periph)
    (hobj : s.obj = some p) (hl : p.locked = false)
    (hd : isDisconnecting s = false) : (disconnect s).obj = none := by
  simp [disconnect, hd, hobj, hl]

/-- `disconnect` never changes the direction bit. -/
theorem disconnect_dirBit (s : PinState) : (disconnect s).dirBit = s.dirBit := by
  by_cases hd : isDisconnecting s
  · simp [disconnect, hd]
  · cases hobj : s.obj with
    | none => simp [disconnect, hd, hobj]
    | some p => by_cases hl : p.locked <;> simp [disconnect, hd, hobj, hl]

/-- Behaviour of `setDigitalValue` needed below: it always returns
`DEVICE_OK`, drives the requested value on the output latch, leaves the
pin with the digital-out status bit set, never clears the direction bit,
and does not attach a peripheral to an unattached pin. -/
theorem setDigitalValue_spec (s : PinState) (v : Int) :
    (setDigitalValue s v).2 = DEVICE_OK ∧
    (setDigitalValue s v).1.outBit = (v != 0) ∧
    (setDigitalValue s v).1.status &&& IO_STATUS_DIGITAL_OUT ≠ 0 ∧
    (s.obj = none → (setDigitalValue s v).1.obj = none) ∧
    (s.dirBit = true → (setDigitalValue s v).1.dirBit = true) := by
  by_cases hc : s.status &&& IO_STATUS_DIGITAL_OUT ≠ 0 ∧ objUnownedOrLocked s
  · simp [setDigitalValue, hc]
  · unfold setDigitalValue
    rw [if_neg hc]
    refine ⟨rfl, rfl, ?_, ?_, ?_⟩
    · show ((disconnect s).status ||| IO_STATUS_DIGITAL_OUT) &&&
        IO_STATUS_DIGITAL_OUT ≠ 0
      rw [lor_land_self]
      decide
    · intro h
      show (disconnect s).obj = none
      exact disconnect_obj_none s h
    · intro h
      exact rfl

/-- Shape of the contended (busy) path of `getAndSetDigitalValue`: when
the sampled input already equals the driven value the direction does not
flip and only the output latch has been written. -/
theorem getAndSet_busy (s : PinState) (v : Int) (hdir : s.dirBit = false)
    (heq : s.inBit = (v != 0)) :
    getAndSetDigitalValue s v = ({ s with outBit := (v != 0) }, DEVICE_BUSY) := by
  by_cases hv : (v != 0) = true
  · have hin : s.inBit = true := heq.trans hv
    simp [getAndSetDigitalValue, hdir, hv, hin]
  · rw [Bool.not_eq_true] at hv
    have hin : s.inBit = false := heq.trans hv
    simp [getAndSetDigitalValue, hdir, hv, hin]

/-- Shape of the successful path of `getAndSetDigitalValue`: when the
sampled input differs from the driven value the direction flips to
output, the prior peripheral is disconnected and `setDigitalValue`
finalizes the state. -/
theorem getAndSet_success (s : PinState) (v : Int) (hdir : s.dirBit = false)
    (hneq : s.inBit ≠ (v != 0)) :
    getAndSetDigitalValue s v =
      ((setDigitalValue
        (disconnect { s with outBit := (v != 0), dirBit := true,
                             cnf := s.cnf ||| 1 }) v).1, 0) := by
  by_cases hv : (v != 0) = true
  · have hin : s.inBit = false := by
      cases h : s.inBit
      · rfl
      · exact absurd (h.trans hv.symm) hneq
    simp [getAndSetDigitalValue, hdir, hv, hin]
  · rw [Bool.not_eq_true] at hv
    have hin : s.inBit = true := by
      cases h : s.inBit
      · exact absurd (h.trans hv.symm) hneq
      · rfl
    simp [getAndSetDigitalValue, hdir, hv, hin]

/-- Claim C1: for every pin, across any sequence of connect and disconnect
calls, at most one PeripheralAdapter owns the pin at any observation
point: `connect p` is a no-op when the pin is already attached to the same
instance, otherwise it disconnects the current owner (if any) before
recording `p`; `disconnect` clears the owner reference (when an unlocked
owner is attached and the pin is not mid-disconnect); and after any
sequence of such calls the owner reference refers to at most one
adapter. -/
theorem connect_disconnect_exclusive_owner (s : PinState) (p : Periph) :
    (s.obj = some p → connect s p = s) ∧
    (s.obj = none → connect s p = { s with obj := some p }) ∧
    (∀ q, s.obj = some q → q ≠ p →
      connect s p = { disconnect s with obj := some p }) ∧
    (∀ q, s.obj = some q → q.locked = false → isDisconnecting s = false →
      (disconnect s).obj = none) ∧
    (∀ l : List PinOp, ownerCount (run s l) ≤ 1) := by
  refine ⟨?_, ?_, ?_, ?_, ?_⟩
  · intro h
    simp [connect, h]
  · intro h
    simp [connect, h]
  · intro q hq hne
    unfold connect
    rw [hq, if_neg (by simp [hne])]
  · intro q hq hlock hd
    simp [disconnect, hd, hq, hlock]
  · intro l
    cases h : (run s l).obj <;> simp [ownerCount, h]

/-- Witness for C1: the four behaviours at concrete states. -/
theorem connect_disconnect_exclusive_owner_witness :
    connect stateB periphA = stateB ∧
    connect stateA periphA = { stateA with obj := some periphA } ∧
    connect stateB periphB = { disconnect stateB with obj := some periphB } ∧
    (disconnect stateB).obj = none ∧
    ownerCount (run stateA
      [PinOp.connectOp periphA, PinOp.connectOp periphB,
        PinOp.disconnectOp]) ≤ 1 := by
  refine ⟨(connect_disconnect_exclusive_owner stateB periphA).1 rfl,
    (connect_disconnect_exclusive_owner stateA periphA).2.1 rfl,
    (connect_disconnect_exclusive_owner stateB periphB).2.2.1 periphA rfl
      (by decide),
    (connect_disconnect_exclusive_owner stateB periphB).2.2.2.1 periphA rfl
      rfl rfl,
    (connect_disconnect_exclusive_owner stateA periphA).2.2.2.2 _⟩

/-- Claim C3 counterexample: with a pin-locked adapter attached and the
pin not mid-disconnect, `disconnect` retains the current peripheral but
changes the status flags and clears the edge-sense hardware
configuration, so it is not the no-op the claim states. -/
theorem disconnect_pinLocked_not_noop :
    (disconnect stateLocked).obj = stateLocked.obj ∧
    (disconnect stateLocked).status ≠ stateLocked.status ∧
    (disconnect stateLocked).cnf ≠ stateLocked.cnf :=
  ⟨rfl, by decide, by decide⟩

/-- Claim C3 (amended): if the current adapter is pin-locked and the pin
is not mid-disconnect, `disconnect` retains the current peripheral, does
not free its PWM channels and leaves the output registers alone, but it
still masks the status word down to the persistent mode bits and clears
the edge-sense field of the pin configuration register. -/
theorem disconnect_pinLocked_keeps_owner (s : PinState) (p : Periph)
    (hobj : s.obj = some p) (hlock : p.locked = true)
    (hd : isDisconnecting s = false) :
    (disconnect s).obj = some p ∧
    (disconnect s).pwmChannelMap = s.pwmChannelMap ∧
    (disconnect s).pwmBuffer = s.pwmBuffer ∧
    (disconnect s).outBit = s.outBit ∧
    (disconnect s).dirBit = s.dirBit ∧
    (disconnect s).playCount = s.playCount ∧
    (disconnect s).status = s.status &&& IO_STATUS_MODES ∧
    (disconnect s).cnf = s.cnf &&& NOT_SENSE_Msk := by
  simp [disconnect, hd, hobj, hlock]

/-- Witness for C3 (amended): evaluated at the concrete locked state. -/
theorem disconnect_pinLocked_keeps_owner_witness :
    (disconnect stateLocked).obj = some ⟨5, true⟩ ∧
    (disconnect stateLocked).status =
      stateLocked.status &&& IO_STATUS_MODES := by
  have h := disconnect_pinLocked_keeps_owner stateLocked ⟨5, true⟩
    rfl rfl rfl
  exact ⟨h.1, h.2.2.2.2.2.2.1⟩

/-- Claim C9: calling `disconnect` twice in a row leaves the pin in a
state identical to calling it once: the second call changes neither the
owner reference, nor the status flags, nor the hardware configuration. -/
theorem disconnect_idempotent (s : PinState) :
    disconnect (disconnect s) = disconnect s := by
  by_cases hd : s.status &&& IO_STATUS_DISCONNECTING = 0
  · cases hobj : s.obj with
    | none =>
      simp [disconnect, isDisconnecting, hd, hobj,
        modes_not_disconnecting, land_land_self]
    | some p =>
      by_cases hl : p.locked <;>
        simp [disconnect, isDisconnecting, hd, hobj, hl,
          modes_not_disconnecting, land_land_self]
  · simp [disconnect, isDisconnecting, hd]

/-- Claim C2 (code evaluation at the failing input): from a fresh
unconfigured pin state, `setDigitalValue 2` — a value outside {0,1} —
returns `DEVICE_OK` and drives the output latch high.  The source never
validates the value, whereas the claim (and the function's own doc
comment) promise `DEVICE_INVALID_PARAMETER` with no mutation for values
out of range. -/
theorem setDigitalValue_out_of_range_succeeds :
    (setDigitalValue stateA 2).2 = DEVICE_OK ∧
    (setDigitalValue stateA 2).1.outBit = true ∧
    (setDigitalValue stateA 2).1.outBit ≠ stateA.outBit ∧
    DEVICE_OK ≠ DEVICE_INVALID_PARAMETER := by
  refine ⟨by decide, by decide, by decide, by decide⟩

/-- Claim C8: when the pin's direction shows input, `getAndSetDigitalValue`
drives `v` on the output latch and flips the direction to output exactly
when the sampled input level differs from `v`.  If the direction did not
flip, it returns `DEVICE_BUSY`, leaving the owner reference and the status
flags untouched (digital-out is not set).  If it did flip, it returns
success (0) with the digital-out status bit set, and — whenever the prior
peripheral is not pin-locked and the pin is not mid-disconnect — the prior
owner has been disconnected. -/
theorem getAndSetDigitalValue_input_mode (s : PinState) (v : Int)
    (hdir : s.dirBit = false) :
    (getAndSetDigitalValue s v).1.outBit = (v != 0) ∧
    (s.inBit = (v != 0) →
      (getAndSetDigitalValue s v).1.dirBit = false ∧
      (getAndSetDigitalValue s v).2 = DEVICE_BUSY ∧
      (getAndSetDigitalValue s v).1.obj = s.obj ∧
      (getAndSetDigitalValue s v).1.status = s.status) ∧
    (s.inBit ≠ (v != 0) →
      (getAndSetDigitalValue s v).1.dirBit = true ∧
      (getAndSetDigitalValue s v).2 = 0 ∧
      (getAndSetDigitalValue s v).1.status &&& IO_STATUS_DIGITAL_OUT ≠ 0 ∧
      (∀ p, s.obj = some p → p.locked = false → isDisconnecting s = false →
        (getAndSetDigitalValue s v).1.obj = none)) := by
  refine ⟨?_, ?_, ?_⟩
  · by_cases h : s.inBit = (v != 0)
    · rw [getAndSet_busy s v hdir h]
    · rw [getAndSet_success s v hdir h]
      exact (setDigitalValue_spec _ v).2.1
  · intro h
    rw [getAndSet_busy s v hdir h]
    exact ⟨hdir, rfl, rfl, rfl⟩
  · intro h
    rw [getAndSet_success s v hdir h]
    refine ⟨?_, rfl, (setDigitalValue_spec _ v).2.2.1, ?_⟩
    · exact (setDigitalValue_spec _ v).2.2.2.2 (by rw [disconnect_dirBit])
    · intro p hp hl hd
      apply (setDigitalValue_spec _ v).2.2.2.1
      exact disconnect_clears_owner _ p hp hl hd

/-- Claim C10: when the pin's direction already shows output,
`getAndSetDigitalValue` returns 0 immediately and the state is unchanged:
the output latch is not written, the status is untouched and the attached
peripheral is not consulted. -/
theorem getAndSetDigitalValue_output_mode (s : PinState) (v : Int)
    (hdir : s.dirBit = true) :
    getAndSetDigitalValue s v = (s, 0) := by
  simp [getAndSetDigitalValue, hdir]

/-- Witness for C8: at the concrete input-mode state, driving 1 (line
reads low, so it differs) succeeds and clears the owner; driving 0 (line
already reads low) is the contended case and returns `DEVICE_BUSY` with
the owner untouched. -/
theorem getAndSetDigitalValue_input_mode_witness :
    (getAndSetDigitalValue stateIn 1).2 = 0 ∧
    (getAndSetDigitalValue stateIn 1).1.obj = none ∧
    (getAndSetDigitalValue stateIn 0).2 = DEVICE_BUSY ∧
    (getAndSetDigitalValue stateIn 0).1.obj = some periphA := by
  refine ⟨((getAndSetDigitalValue_input_mode stateIn 1 rfl).2.2
      (by decide)).2.1, ?_, ?_, ?_⟩
  · exact ((getAndSetDigitalValue_input_mode stateIn 1 rfl).2.2
      (by decide)).2.2.2 periphA rfl rfl rfl
  · exact ((getAndSetDigitalValue_input_mode stateIn 0 rfl).2.1
      (by decide)).2.1
  · exact ((getAndSetDigitalValue_input_mode stateIn 0 rfl).2.1
      (by decide)).2.2.1

/-- Witness for C10: evaluated at a concrete output-mode state. -/
theorem getAndSetDigitalValue_output_mode_witness :
    getAndSetDigitalValue { stateA with dirBit := true } 1 =
      ({ stateA with dirBit := true }, 0) :=
  getAndSetDigitalValue_output_mode { stateA with dirBit := true } 1 rfl

/-- `disconnect` only touches the owner, the status word, the channel map
and the sense field: name, capability, sample range, duty buffer and play
count are untouched. -/
theorem disconnect_preserves (s : PinState) :
    (disconnect s).name = s.name ∧
    (disconnect s).analogCapable = s.analogCapable ∧
    (disconnect s).sampleRange = s.sampleRange ∧
    (disconnect s).pwmBuffer = s.pwmBuffer ∧
    (disconnect s).playCount = s.playCount := by
  by_cases hd : isDisconnecting s
  · simp [disconnect, hd]
  · cases hobj : s.obj with
    | none => simp [disconnect, hd, hobj]
    | some p => by_cases hl : p.locked <;> simp [disconnect, hd, hobj, hl]

/-- `connect` likewise preserves name, capability, sample range, duty
buffer and play count. -/
theorem connect_preserves (s : PinState) (p : Periph) :
    (connect s p).name = s.name ∧
    (connect s p).analogCapable = s.analogCapable ∧
    (connect s p).sampleRange = s.sampleRange ∧
    (connect s p).pwmBuffer = s.pwmBuffer ∧
    (connect s p).playCount = s.playCount := by
  by_cases he : s.obj = some p
  · simp [connect, he]
  · cases hobj : s.obj with
    | none => simp [connect, he, hobj]
    | some q =>
      have h := disconnect_preserves s
      unfold connect
      rw [if_neg he, hobj]
      exact ⟨h.1, h.2.1, h.2.2.1, h.2.2.2.1, h.2.2.2.2⟩

/-- Connecting the PWM collaborator never frees PWM channels: either the
pin already owns it (no-op) or the disconnected previous owner is not the
PWM singleton, so the channel map survives. -/
theorem connect_pwm_preserves_map (s : PinState) :
    (connect s pwmPeriph).pwmChannelMap = s.pwmChannelMap := by
  by_cases he : s.obj = some pwmPeriph
  · simp [connect, he]
  · cases hobj : s.obj with
    | none => simp [connect, he, hobj]
    | some q =>
      have hq : q ≠ pwmPeriph := fun h => he (by rw [hobj, h])
      by_cases hd : isDisconnecting s
      · simp [connect, he, hobj, disconnect, hd, hq]
      · by_cases hl : q.locked <;>
          simp [connect, he, hobj, disconnect, hd, hl, hq]

/-- The channel returned by a successful `findChannel` scan is mapped to
the requested pin. -/
theorem findChannel_spec (map : Fin 4 → Int) (name : Nat) (c : Fin 4)
    (h : findChannel map name = some c) : map c = (name : Int) := by
  have e : List.finRange 4 = [0, 1, 2, 3] := rfl
  rw [findChannel, e] at h
  simp only [List.foldl_cons, List.foldl_nil] at h
  split_ifs at h <;> simp_all

/-- After `allocChannel`, the returned channel is mapped to the pin, and
the fields `setAnalogValueValid` reads later are preserved. -/
theorem allocChannel_spec (s : PinState) :
    (allocChannel s).1.pwmChannelMap (allocChannel s).2 = (s.name : Int) ∧
    (allocChannel s).1.sampleRange = s.sampleRange ∧
    (allocChannel s).1.playCount = s.playCount ∧
    (allocChannel s).1.pwmBuffer = s.pwmBuffer := by
  cases hf : findChannel s.pwmChannelMap s.name with
  | some c =>
    simp [allocChannel, hf, findChannel_spec _ _ _ hf]
  | none =>
    simp only [allocChannel, hf]
    refine ⟨?_, ?_, ?_, ?_⟩
    · rw [congrFun (connect_pwm_preserves_map _) _]
      simp
    · exact (connect_preserves _ _).2.2.1
    · exact (connect_preserves _ _).2.2.2.2
    · exact (connect_preserves _ _).2.2.2.1

/-- Behaviour of the validated core of `setAnalogValue`: it returns
`DEVICE_OK`, bumps the retransmission count by one, and stores the
inverted duty for the allocated channel. -/
theorem setAnalogValueValid_spec (s0 : PinState) (v : Int) :
    (setAnalogValueValid s0 v).2 = DEVICE_OK ∧
    (setAnalogValueValid s0 v).1.playCount = s0.playCount + 1 ∧
    (setAnalogValueValid s0 v).1.pwmChannelMap (allocChannel s0).2 =
      (s0.name : Int) ∧
    (setAnalogValueValid s0 v).1.pwmBuffer (allocChannel s0).2 =
      s0.sampleRange * (1024 - v.toNat) / 1024 := by
  obtain ⟨hmap, hrange, hplay, hbuf⟩ := allocChannel_spec s0
  unfold setAnalogValueValid
  cases hobj : (allocChannel s0).1.obj with
  | none => simp [hobj, hmap, hrange, hplay]
  | some p =>
    by_cases hl : p.locked = false <;> simp [hobj, hl, hmap, hrange, hplay]

/-- Claim C5 (amended): for every valid level, `setAnalogValue` succeeds,
stores the inverted active-low duty `sampleRange * (1024 - v) / 1024`
into the allocated channel's duty-buffer entry — the full sample range at
level 0 — and retransmits the entire shared duty buffer. -/
theorem setAnalogValue_inverted_duty (s : PinState) (v : Int)
    (hcap : s.analogCapable = true) (h0 : 0 ≤ v)
    (h1 : v ≤ DEVICE_PIN_MAX_OUTPUT) :
    (setAnalogValue s v).2 = DEVICE_OK ∧
    (setAnalogValue s v).1.playCount = s.playCount + 1 ∧
    ∃ c : Fin 4,
      (setAnalogValue s v).1.pwmChannelMap c = (s.name : Int) ∧
      (setAnalogValue s v).1.pwmBuffer c =
        s.sampleRange * (1024 - v.toNat) / 1024 ∧
      (v = 0 → (setAnalogValue s v).1.pwmBuffer c = s.sampleRange) := by
  have hval : ¬(v < 0 ∨ v > DEVICE_PIN_MAX_OUTPUT) := by
    push_neg
    exact ⟨h0, h1⟩
  have hred : setAnalogValue s v =
      setAnalogValueValid
        (if s.status &&& IO_STATUS_ANALOG_OUT = 0 then disconnect s else s)
        v := by
    unfold setAnalogValue
    rw [hcap]
    simp [hval]
  set s0 := if s.status &&& IO_STATUS_ANALOG_OUT = 0 then disconnect s else s
    with hs0
  have hpres : s0.name = s.name ∧ s0.sampleRange = s.sampleRange ∧
      s0.playCount = s.playCount := by
    rw [hs0]
    split
    · have h := disconnect_preserves s
      exact ⟨h.1, h.2.2.1, h.2.2.2.2⟩
    · exact ⟨rfl, rfl, rfl⟩
  obtain ⟨hok, hplay, hmap, hduty⟩ := setAnalogValueValid_spec s0 v
  rw [hred]
  refine ⟨hok, by rw [hplay, hpres.2.2], (allocChannel s0).2, ?_, ?_, ?_⟩
  · rw [hmap, hpres.1]
  · rw [hduty, hpres.2.1]
  · intro hv0
    rw [hduty, hpres.2.1, hv0]
    simp [Nat.mul_div_cancel]

/-- Witness for C5 (amended): at the concrete state, level 0 yields the
full sample range 1000 in the allocated channel's entry. -/
theorem setAnalogValue_inverted_duty_witness :
    (setAnalogValue stateA 0).2 = DEVICE_OK ∧
    (setAnalogValue stateA 0).1.playCount = 1 ∧
    ∃ c : Fin 4, (setAnalogValue stateA 0).1.pwmBuffer c = 1000 := by
  obtain ⟨hok, hplay, c, _, _, hfull⟩ :=
    setAnalogValue_inverted_duty stateA 0 rfl (by decide) (by decide)
  exact ⟨hok, hplay, c, hfull rfl⟩

/-- Claim C5 counterexample: at level `DEVICE_PIN_MAX_OUTPUT` = 1023 with
sample range 2048 the stored duty is `2048 * 1 / 1024 = 2`, not the
"exactly zero" the claim states (the float product `2048 * 2^-10` is
exact, so the rational model agrees with the source here). -/
theorem setAnalogValue_max_level_nonzero :
    (setAnalogValue statePwm 1023).2 = DEVICE_OK ∧
    (setAnalogValue statePwm 1023).1.pwmBuffer (0 : Fin 4) = 2 ∧
    (2 : Nat) ≠ 0 := by
  refine ⟨by decide, by decide, by decide⟩

/-- Claim C6 counterexample: with range 180 and center 90 — the
parameters the claim names — the code's mapping produces pulse widths of
0us for angle 0 and 180us for angle 180, far outside any rounding
tolerance of the claimed 500us and 2500us. -/
theorem setServoValue_range180_center90 :
    servoPulseUs 0 180 90 = some 0 ∧
    servoPulseUs 180 180 90 = some 180 ∧
    (0 : Nat) ≠ 500 ∧ (180 : Nat) ≠ 2500 := by
  refine ⟨by decide, by decide, by decide, by decide⟩

/-- Claim C6 (amended): the 500us and 2500us endpoints are produced by
the default servo parameters range = 2000 and center = 1500: angle 0 maps
to a 500us pulse (duty level 25 at the fixed 20ms period) and angle 180
to 2500us (duty level 128); with range = 180 and center = 90 the same
mapping `(center - range/2)*1000 + range*(angle*1000/180)`, divided by
1000, yields 0us and 180us instead. -/
theorem setServoValue_default_endpoints :
    servoPulseUs 0 DEVICE_PIN_DEFAULT_SERVO_RANGE
      DEVICE_PIN_DEFAULT_SERVO_CENTER = some 500 ∧
    servoPulseUs 180 DEVICE_PIN_DEFAULT_SERVO_RANGE
      DEVICE_PIN_DEFAULT_SERVO_CENTER = some 2500 ∧
    servoDutyLevel 500 = 25 ∧
    servoDutyLevel 2500 = 128 ∧
    servoPulseUs 0 180 90 = some 0 ∧
    servoPulseUs 180 180 90 = some 180 := by
  refine ⟨by decide, by decide, by decide, by decide, by decide, by decide⟩

/-- Truncated proportional rescaling moves a duty fraction by at most one
unit of the new sample range. -/
theorem rescale_frac_close (d oldR newR : Nat) (h1 : 0 < oldR)
    (h2 : 0 < newR) :
    |((d * newR / oldR : Nat) : ℚ) / newR - (d : ℚ) / oldR| ≤ 1 / newR := by
  have hb1 : ((d * newR / oldR : Nat) : ℚ) * oldR ≤ (d : ℚ) * newR := by
    exact_mod_cast Nat.div_mul_le_self (d * newR) oldR
  have hb2 : (d : ℚ) * newR <
      ((d * newR / oldR : Nat) : ℚ) * oldR + oldR := by
    exact_mod_cast Nat.lt_div_mul_add h1
  have h1' : (0 : ℚ) < oldR := by exact_mod_cast h1
  have h2' : (0 : ℚ) < newR := by exact_mod_cast h2
  rw [abs_le]
  constructor
  · rw [neg_le, neg_sub]
    rw [div_sub_div _ _ (ne_of_gt h1') (ne_of_gt h2'), div_le_div_iff₀
      (by positivity) h2']
    ring_nf
    nlinarith [hb2]
  · rw [sub_le_iff_le_add]
    have hle : ((d * newR / oldR : Nat) : ℚ) / newR ≤ (d : ℚ) / oldR := by
      rw [div_le_div_iff₀ h2' h1']
      linarith [hb1]
    have hnn : (0 : ℚ) ≤ 1 / newR := by positivity
    linarith

/-- The rescaled duty never exceeds the new sample range when the old
duty was within the old range, so the `uint16_t` cast does not wrap for
hardware sample ranges (at most 32767 on this PWM). -/
theorem rescale_no_wrap (d oldR newR : Nat) (h1 : 0 < oldR)
    (hd : d ≤ oldR) (hmax : newR ≤ 32767) :
    d * newR / oldR % 65536 = d * newR / oldR := by
  apply Nat.mod_eq_of_lt
  have : d * newR / oldR ≤ newR := by
    calc d * newR / oldR ≤ oldR * newR / oldR :=
          Nat.div_le_div_right (Nat.mul_le_mul_right _ hd)
      _ = newR := Nat.mul_div_cancel_left _ h1
  omega

/-- Claim C7: in analog-out mode, `setAnalogPeriodUs` rescales every
channel's buffered duty by the factor newRange / oldRange (with
truncation), which preserves each channel's duty fraction to within one
unit (1 / newRange) of its pre-change value, and then retransmits the
whole duty buffer. -/
theorem setAnalogPeriodUs_preserves_duty_fraction (s : PinState)
    (period newRange : Nat)
    (hmode : s.status &&& IO_STATUS_ANALOG_OUT ≠ 0)
    (hold : 0 < s.sampleRange) (hnew : 0 < newRange)
    (hmax : newRange ≤ 32767)
    (hbuf : ∀ i, s.pwmBuffer i ≤ s.sampleRange) :
    (setAnalogPeriodUs s period newRange).2 = DEVICE_OK ∧
    (setAnalogPeriodUs s period newRange).1.sampleRange = newRange ∧
    (setAnalogPeriodUs s period newRange).1.playCount = s.playCount + 1 ∧
    ∀ i : Fin 4,
      (setAnalogPeriodUs s period newRange).1.pwmBuffer i =
        s.pwmBuffer i * newRange / s.sampleRange ∧
      |((setAnalogPeriodUs s period newRange).1.pwmBuffer i : ℚ) / newRange -
        (s.pwmBuffer i : ℚ) / s.sampleRange| ≤ 1 / newRange := by
  have hred : setAnalogPeriodUs s period newRange =
      ({ s with
          periodUs := period,
          sampleRange := newRange,
          pwmBuffer := fun i =>
            s.pwmBuffer i * newRange / s.sampleRange % 65536,
          playCount := s.playCount + 1 }, DEVICE_OK) := by
    unfold setAnalogPeriodUs
    rw [if_pos hmode]
  rw [hred]
  refine ⟨rfl, rfl, rfl, ?_⟩
  intro i
  have hw := rescale_no_wrap (s.pwmBuffer i) s.sampleRange newRange hold
    (hbuf i) hmax
  constructor
  · exact hw
  · show |((s.pwmBuffer i * newRange / s.sampleRange % 65536 : Nat) : ℚ) /
        newRange - (s.pwmBuffer i : ℚ) / s.sampleRange| ≤ 1 / newRange
    rw [hw]
    exact rescale_frac_close (s.pwmBuffer i) s.sampleRange newRange hold hnew

/-- Witness for C7: a concrete rescale from range 1000 to 2000 doubles
the buffered duty 250 to 500, preserving the fraction 1/4 exactly. -/
theorem setAnalogPeriodUs_preserves_duty_fraction_witness :
    (setAnalogPeriodUs stateRescale 40000 2000).2 = DEVICE_OK ∧
    (setAnalogPeriodUs stateRescale 40000 2000).1.pwmBuffer
      (0 : Fin 4) = 500 := by
  have h := setAnalogPeriodUs_preserves_duty_fraction stateRescale 40000 2000
    (by decide) (by decide) (by decide) (by decide)
    (fun i => by show (250 : Nat) ≤ 1000; decide)
  refine ⟨h.1, ?_⟩
  rw [(h.2.2.2 (0 : Fin 4)).1]
  decide

/-- Claim C4: with a latched bitmask having exactly bits {3, 7, 20} set
and all three pins registered for edge events (any of the three
edge-event flags, any initial sense polarity), one entry into the
interrupt handler dispatches exactly one rise-or-fall event per pin, in
order of highest-numbered bit first (pin 20, then 7, then 3), and
afterwards all latch bits for the port are cleared. -/
theorem process_gpio_irq_demux (f3 f7 f20 : Fin 3) (b3 b7 b20 : Bool) :
    ((process_gpio_irq (demoRegistry f3 f7 f20) (demoCnf b3 b7 b20) 0
        ((1 <<< 3) ||| (1 <<< 7) ||| (1 <<< 20))).1.map Prod.fst =
      [20, 7, 3]) ∧
    (process_gpio_irq (demoRegistry f3 f7 f20) (demoCnf b3 b7 b20) 0
        ((1 <<< 3) ||| (1 <<< 7) ||| (1 <<< 20))).2.2 = 0 := by
  revert f3 f7 f20 b3 b7 b20
  decide

end NRF52PinModel
